import Mathlib

/-!
# Item parser and gap-fill question generator: a shallow embedding

This file embeds the two parsing variants of the code-exercise repository
(`ft/code_exercise1/code_exercise_1a.py`, the lenient variant with gap-fill
question generation, and `ft/code_exercise1/code_exercise_1b.py`, the strict
variant) and proves or refutes the specification's claims about them.

Conventions of the embedding:
* A text stream is a `List String` of raw lines, each still carrying its
  trailing newline, exactly as Python file iteration yields them.
* Python's global `random.randint(0, n-1)` source is modelled as a list of
  natural-number draws consumed left to right; a draw `d` stands for the
  value `d % n`, so every sequence of values the random source can produce
  is represented, and nothing else.  A loop that exhausts its draw list
  without finishing reports `hung`: proving `hung` for *every* finite draw
  list shows the source loop cannot terminate however the random values
  fall.
* Loops whose Python form iterates over a shrinking stream are written with
  an explicit fuel argument initialised to (length of the input + 1).  Each
  iteration consumes at least one element of the input, so the fuel can
  never be exhausted before the loop's own exit; the fuel-zero fallback is
  unreachable and exists only to make the function structurally recursive.
-/

/-! ## Python string helpers -/

/-- The characters `str.rstrip()` / `str.strip()` remove (the ASCII subset,
which is all that occurs in this grammar's marker handling). -/
def pyWhitespace (c : Char) : Bool :=
  c = ' ' || c = '\t' || c = '\n' || c = '\r' || c = '\x0b' || c = '\x0c'

/-- Python `s.rstrip()`: drop trailing whitespace. -/
def rstrip (s : String) : String :=
  String.mk ((s.toList.reverse.dropWhile pyWhitespace).reverse)

/-- Python `s.strip()`: drop leading and trailing whitespace. -/
def strip (s : String) : String :=
  String.mk (((s.toList.dropWhile pyWhitespace).reverse.dropWhile pyWhitespace).reverse)

/-- Python `s.startswith(p)`. -/
def pyStartsWith (s p : String) : Bool :=
  p.toList.isPrefixOf s.toList

/-- Python `s[k:]` for a nonnegative `k`: drop the first `k` characters. -/
def pyDrop (s : String) (k : Nat) : String :=
  String.mk (s.toList.drop k)

/-- Split a string into lines the way Python text-file iteration does:
each line keeps its trailing newline; a final fragment without a newline is
yielded as-is; nothing is yielded after a trailing newline. -/
def splitLinesAux : List Char → List Char → List String
  | [], [] => []
  | [], acc => [String.mk acc.reverse]
  | c :: cs, acc =>
    if c = '\n' then String.mk (c :: acc).reverse :: splitLinesAux cs []
    else splitLinesAux cs (c :: acc)

def splitLinesKeep (s : String) : List String :=
  splitLinesAux s.toList []

/-! ## Marker tokens

`CASE_PREFIX`, `QUESTION_PREFIX`, `ANSWER_PREFIX` and the item terminator
from both source files (renamed to satisfy local naming conventions). -/

def caseMarker : String := "Case: "

def questionMarker : String := "Question: "

def answerMarker : String := "- "

def itemTerminalLine : String := "###"

/-! ## Gap scanning: `gapfind_re = re.compile("([$].*?[$])")`, `finditer`

`finditer` scans left to right.  At a position holding `'$'` the lazy
`.*?[$]` succeeds exactly when a further `'$'` occurs with no newline
before it (Python's `.` does not match a newline), and matches up to the
*nearest* such `'$'`; scanning resumes after the match.  At any other
position, or when the lazy part fails, scanning advances one character. -/

/-- A regex match of the gap pattern: `span` is `match.span()`
(half-open character offsets), `text` is `match.group()`. -/
structure Gap where
  span : Nat × Nat
  text : String
  deriving DecidableEq, Repr

/-- Find the closing `'$'` for a gap opened just before `cs`: returns the
number of content characters before it and the characters after it, or
`none` if a newline or the end of the text intervenes. -/
def findClose : List Char → Option (Nat × List Char)
  | [] => none
  | c :: cs =>
    if c = '$' then some (0, cs)
    else if c = '\n' then none
    else (findClose cs).map (fun p => (p.1 + 1, p.2))

/-- One `finditer` pass.  The fuel bounds the number of scan steps; each
step consumes at least one character, so fuel = length of the text
suffices. -/
def scanAux : Nat → List Char → Nat → List Gap
  | 0, _, _ => []
  | _ + 1, [], _ => []
  | fuel + 1, c :: cs, pos =>
    if c = '$' then
      match findClose cs with
      | some (k, after) =>
        ⟨(pos, pos + k + 2), String.mk ('$' :: cs.take (k + 1))⟩ ::
          scanAux fuel after (pos + k + 2)
      | none => scanAux fuel cs (pos + 1)
    else scanAux fuel cs (pos + 1)

/-- All gap matches of a text, left to right: `gapfind_re.finditer(s)`. -/
def scanGaps (s : String) : List Gap :=
  scanAux s.toList.length s.toList 0

/-- `gap_matches[j].group()` (out-of-range defaults are never reached:
every selected index is below the number of gaps). -/
def gapText (gaps : List Gap) (j : Nat) : String :=
  (gaps.getD j ⟨(0, 0), ""⟩).text

/-! ## Gap-fill question generation (`Item.generate_questions`, variant 1a) -/

/-- `GapFillQuestion` of variant 1a.  The source annotates `answer` as
`int`, but Python dataclasses do not enforce annotations and the assigned
value `gap.group()` is a string; the field is therefore a string here. -/
structure GapFillQuestion where
  gap_span : Nat × Nat
  answer : String
  distractors : List String
  deriving DecidableEq, Repr

instance : Inhabited GapFillQuestion := ⟨⟨(0, 0), "", []⟩⟩

/-- The distractor-selection loop of `generate_questions` for the gap at
index `i` among `n` gaps:

    while len(distractor_indices) < min(len(gap_matches), 4):
        idx = random.randint(0, len(gap_matches)-1)
        if idx != i and idx not in distractor_indices:
            distractor_indices.append(idx)

Each `randint` call consumes one draw `d` and yields `d % n`.  Returns the
selected indices and the unconsumed draws, or `none` when the draw list is
exhausted with the loop still running. -/
def selectLoop (i n : Nat) : List Nat → List Nat → Option (List Nat × List Nat)
  | draws, acc =>
    if acc.length < min n 4 then
      match draws with
      | [] => none
      | d :: ds =>
        let idx := d % n
        if idx ≠ i ∧ idx ∉ acc then selectLoop i n ds (acc ++ [idx])
        else selectLoop i n ds acc
    else some (acc, draws)

/-- Result of running `generate_questions`:
`typeError` models `re.finditer(None)` raising `TypeError` when the item
has no case; `hung` models the selection loop still running after all
provided draws. -/
inductive GenRes where
  | typeError
  | hung
  | ok (qs : List GapFillQuestion) (rest : List Nat)
  deriving DecidableEq, Repr

/-- The `for i, gap in enumerate(gap_matches)` loop of
`generate_questions`: for each gap run the selection loop, then map the
selected indices to gap texts (`gap_matches[i].group()`). -/
def genLoop (gaps : List Gap) (n : Nat) :
    List Gap → Nat → List Nat → List GapFillQuestion → GenRes
  | [], _, draws, acc => .ok acc draws
  | g :: gs, i, draws, acc =>
    match selectLoop i n draws [] with
    | none => .hung
    | some (idxs, draws₁) =>
      genLoop gaps n gs (i + 1) draws₁
        (acc ++ [⟨g.span, g.text, idxs.map (gapText gaps)⟩])

/-- `Item.generate_questions` of variant 1a, applied to `self.case`.
A `none` case is the Python `None` default: `gapfind_re.finditer(None)`
raises `TypeError`. -/
def generateQuestions : Option String → List Nat → GenRes
  | none, _ => .typeError
  | some s, draws =>
    genLoop (scanGaps s) (scanGaps s).length (scanGaps s) 0 draws []

/-! ## Lenient items (variant 1a) -/

/-- `Item` of variant 1a: `case` and `question` default to `None`. -/
structure Item where
  case? : Option String
  question? : Option String
  answers : List String
  gap_fill_questions : List GapFillQuestion
  deriving DecidableEq, Repr

def emptyItemA : Item := ⟨none, none, [], []⟩

/-- Python truthiness of an optional string: `None` and `""` are falsy. -/
def truthyStr : Option String → Bool
  | none => false
  | some s => s ≠ ""

/-- `Item.is_empty`: `not (self.case or self.question or self.answers)`. -/
def isEmptyItem (it : Item) : Bool :=
  !(truthyStr it.case? || truthyStr it.question? || !it.answers.isEmpty)

/-- The accumulation loop of variant 1a `next_item` (lines 71-82): read
lines until the terminator, overwriting `case`/`question`, appending
answers, ignoring everything else.  Returns the accumulated item and the
unconsumed lines. -/
def parseLoop : Item → List String → Item × List String
  | it, [] => (it, [])
  | it, l :: ls =>
    let line := rstrip l
    if line = itemTerminalLine then (it, ls)
    else if pyStartsWith line caseMarker then
      parseLoop { it with case? := some (pyDrop line caseMarker.length) } ls
    else if pyStartsWith line questionMarker then
      parseLoop { it with question? := some (pyDrop line questionMarker.length) } ls
    else if pyStartsWith line answerMarker then
      parseLoop { it with answers := it.answers ++ [pyDrop line answerMarker.length] } ls
    else parseLoop it ls

/-- Outcome of variant 1a `next_item`. -/
inductive NextA where
  | noItem (rest : List String)
  | item (it : Item) (restLines : List String) (restDraws : List Nat)
  | typeError
  | hung
  deriving DecidableEq, Repr

/-- Variant 1a `Item.next_item`: accumulate, return `None` if the item is
empty, otherwise attach `generate_questions()` and return the item. -/
def nextItemA (lines : List String) (draws : List Nat) : NextA :=
  let r := parseLoop emptyItemA lines
  if isEmptyItem r.1 then .noItem r.2
  else
    match generateQuestions r.1.case? draws with
    | .typeError => .typeError
    | .hung => .hung
    | .ok qs rest => .item { r.1 with gap_fill_questions := qs } r.2 rest

/-- Outcome of draining variant 1a `iter_items`: the yielded items, and how
the stream ended (cleanly, by the `TypeError`, or stuck in the selection
loop). -/
inductive StreamA where
  | done (items : List Item)
  | typeError (items : List Item)
  | hung (items : List Item)
  deriving DecidableEq, Repr

def itemsOfA : StreamA → List Item
  | .done its => its
  | .typeError its => its
  | .hung its => its

/-- The `iter_items` loop of variant 1a, fuelled (each yielded item
consumes at least one line). -/
def iterAuxA : Nat → List String → List Nat → StreamA
  | 0, _, _ => .done []
  | fuel + 1, lines, draws =>
    match nextItemA lines draws with
    | .noItem _ => .done []
    | .typeError => .typeError []
    | .hung => .hung []
    | .item it rest rdraws =>
      match iterAuxA fuel rest rdraws with
      | .done its => .done (it :: its)
      | .typeError its => .typeError (it :: its)
      | .hung its => .hung (it :: its)

/-- Variant 1a `Item.iter_items`, drained to a list. -/
def iterItemsA (lines : List String) (draws : List Nat) : StreamA :=
  iterAuxA (lines.length + 1) lines draws

/-! ## Characterisation folds for the lenient accumulation loop

These replay the `elif` chain of the loop body on a terminator-free block
of lines, tracking a single field each; they state what "last writer wins"
and "append only" mean. -/

def lastCasePayload : Option String → List String → Option String
  | acc, [] => acc
  | acc, l :: ls =>
    let line := rstrip l
    if pyStartsWith line caseMarker then
      lastCasePayload (some (pyDrop line caseMarker.length)) ls
    else lastCasePayload acc ls

def lastQuestionPayload : Option String → List String → Option String
  | acc, [] => acc
  | acc, l :: ls =>
    let line := rstrip l
    if pyStartsWith line caseMarker then lastQuestionPayload acc ls
    else if pyStartsWith line questionMarker then
      lastQuestionPayload (some (pyDrop line questionMarker.length)) ls
    else lastQuestionPayload acc ls

def answerPayloadsA : List String → List String
  | [] => []
  | l :: ls =>
    let line := rstrip l
    if pyStartsWith line caseMarker then answerPayloadsA ls
    else if pyStartsWith line questionMarker then answerPayloadsA ls
    else if pyStartsWith line answerMarker then
      pyDrop line answerMarker.length :: answerPayloadsA ls
    else answerPayloadsA ls

/-! ## Strict items (variant 1b) -/

/-- `Item` of variant 1b: all fields mandatory. -/
structure ItemB where
  caseStr : String
  questionStr : String
  answers : List String
  deriving DecidableEq, Repr

/-- Outcome of variant 1b `next_item`: `noItem` is the `return None` at a
clean end of stream, `err` an `ItemParseError` with its message. -/
inductive ParseB where
  | noItem
  | ok (it : ItemB) (rest : List String)
  | err (msg : String)
  deriving DecidableEq, Repr

/-- `f"'{CASE_PREFIX}' does not start Item"`. -/
def caseErrMsg : String := "'Case: ' does not start Item"

/-- `f"Unexpected input.  Was expecting '{QUESTION_PREFIX}' line.\nReceived: {question_line}"`. -/
def qErrMsg (line : String) : String :=
  "Unexpected input.  Was expecting 'Question: ' line.\nReceived: " ++ line

/-- `f"Unexpected input.  Was expecting '{CASE_TERMINAL_LINE}'.\nReceived: {line}"`. -/
def termErrMsg (line : String) : String :=
  "Unexpected input.  Was expecting '###'.\nReceived: " ++ line

/-- The leading loop of variant 1b `next_item` (lines 37-40): skip lines
whose `strip()` is empty; keep the first other line *raw*. -/
def firstNonBlank : List String → Option (String × List String)
  | [] => none
  | l :: ls => if strip l = "" then firstNonBlank ls else some (l, ls)

/-- Python `fp.readline()`: the next line, or `""` at end of stream. -/
def readline1 : List String → String × List String
  | [] => ("", [])
  | l :: ls => (l, ls)

/-- The answers loop of variant 1b `next_item` (lines 60-71): collect
answer lines until the terminator; any other line is an error; end of
stream also finalises the item. -/
def ansLoop (cs qs : String) : List String → List String → ParseB
  | [], acc => .ok ⟨cs, qs, acc⟩ []
  | l :: ls, acc =>
    let line := rstrip l
    if rstrip line = itemTerminalLine then .ok ⟨cs, qs, acc⟩ ls
    else if pyStartsWith line answerMarker then
      ansLoop cs qs ls (acc ++ [pyDrop line answerMarker.length])
    else .err (termErrMsg line)

/-- Variant 1b `Item.next_item`.  Note that the case line is used raw
(never `rstrip`ped): its payload keeps any trailing newline. -/
def nextItemB (lines : List String) : ParseB :=
  match firstNonBlank lines with
  | none => .noItem
  | some (case_line, rest) =>
    if pyStartsWith case_line caseMarker then
      let r := readline1 rest
      let question_line := rstrip r.1
      if pyStartsWith question_line questionMarker then
        ansLoop (pyDrop case_line caseMarker.length)
          (pyDrop question_line questionMarker.length) r.2 []
      else .err (qErrMsg question_line)
    else .err caseErrMsg

/-- The `iter_items` loop of variant 1b, fuelled: yields items until the
clean end of stream or an `ItemParseError`, which is reported with the
items yielded before it. -/
def iterAuxB : Nat → List String → List ItemB × Option String
  | 0, _ => ([], none)
  | fuel + 1, lines =>
    match nextItemB lines with
    | .noItem => ([], none)
    | .err m => ([], some m)
    | .ok it rest =>
      let r := iterAuxB fuel rest
      (it :: r.1, r.2)

/-- Variant 1b `Item.iter_items`, drained to a list plus the error that
aborted it, if any. -/
def iterItemsB (lines : List String) : List ItemB × Option String :=
  iterAuxB (lines.length + 1) lines

/-! ## Helper lemmas: the distractor-selection loop -/

/-- A duplicate-free list of indices below `n` that avoids one index `i`
below `n` has at most `n - 1` elements. -/
lemma nodup_bounded_length {l : List Nat} {n i : Nat} (hnd : l.Nodup)
    (hb : ∀ x ∈ l, x < n ∧ x ≠ i) (hi : i < n) : l.length ≤ n - 1 := by
  have hsub : l.toFinset ⊆ (Finset.range n).erase i := by
    intro x hx
    rw [List.mem_toFinset] at hx
    rcases hb x hx with ⟨h1, h2⟩
    exact Finset.mem_erase.mpr ⟨h2, Finset.mem_range.mpr h1⟩
  have hcard := Finset.card_le_card hsub
  rwa [List.toFinset_card_of_nodup hnd, Finset.card_erase_of_mem (Finset.mem_range.mpr hi),
    Finset.card_range] at hcard

/-- When the text has between 1 and 4 gaps, the selection loop for gap `i`
can never reach its target of `min n 4 = n` accepted indices — at most
`n - 1` indices differ from `i` — so it runs forever: it is still running
after any finite list of random draws. -/
lemma selectLoop_none_of_small {n i : Nat} (h1 : 1 ≤ n) (h4 : n ≤ 4) (hi : i < n) :
    ∀ (draws acc : List Nat), acc.Nodup → (∀ x ∈ acc, x < n ∧ x ≠ i) →
      selectLoop i n draws acc = none := by
  intro draws
  induction draws with
  | nil =>
    intro acc hnd hb
    have hlen : acc.length < min n 4 := by
      have := nodup_bounded_length hnd hb hi
      rw [Nat.min_eq_left h4]
      omega
    unfold selectLoop
    simp [hlen]
  | cons d ds ih =>
    intro acc hnd hb
    have hlen : acc.length < min n 4 := by
      have := nodup_bounded_length hnd hb hi
      rw [Nat.min_eq_left h4]
      omega
    unfold selectLoop
    simp only [hlen, if_true]
    by_cases hc : d % n ≠ i ∧ d % n ∉ acc
    · rw [if_pos hc]
      apply ih
      · rw [List.nodup_append]
        refine ⟨hnd, List.nodup_singleton _, ?_⟩
        intro a ha hmem
        rw [List.mem_singleton] at hmem
        subst hmem
        exact hc.2 ha
      · intro x hx
        rcases List.mem_append.mp hx with hx | hx
        · exact hb x hx
        · rw [List.mem_singleton] at hx
          subst hx
          exact ⟨Nat.mod_lt d h1, hc.1⟩
    · rw [if_neg hc]
      exact ih acc hnd hb

/-- The case text `"$a$ $b$"` has two gaps, so every question's selection
loop targets `min 2 4 = 2` distractors while only one index differs from
its own — generation never completes, whatever the random draws. -/
lemma gen_two_gaps_hung :
    ∀ draws : List Nat, generateQuestions (some "$a$ $b$") draws = .hung := by
  intro draws
  have hg : scanGaps "$a$ $b$" = [⟨(0, 3), "$a$"⟩, ⟨(4, 7), "$b$"⟩] := by decide
  have hs : selectLoop 0 2 draws [] = none :=
    selectLoop_none_of_small (by decide) (by decide) (by decide) draws []
      (List.nodup_nil) (by intro x hx; cases hx)
  simp only [generateQuestions, hg]
  simp only [List.length_cons, List.length_nil]
  rw [genLoop, hs]

/-- C1: the claim states the distractor-selection loop always terminates,
capping a single-gap question at zero distractors.  The code disagrees: on
the one-gap case text `"$a$"` the loop's target is `min 1 4 = 1` but the
only gap index is the question's own and is never accepted, so generation
is still running after every finite sequence of random draws — it never
returns at all, let alone with zero distractors. -/
theorem c1_single_gap_selection_never_completes :
    ∀ draws : List Nat, generateQuestions (some "$a$") draws = .hung := by
  intro draws
  have hg : scanGaps "$a$" = [⟨(0, 3), "$a$"⟩] := by decide
  have hs : selectLoop 0 1 draws [] = none :=
    selectLoop_none_of_small (by decide) (by decide) (by decide) draws []
      (List.nodup_nil) (by intro x hx; cases hx)
  simp only [generateQuestions, hg]
  simp only [List.length_cons, List.length_nil]
  rw [genLoop, hs]

/-- C2: the claim states every non-empty lenient item is returned with no
error channel, gap-fill generation being skipped when the case is absent.
The code has no such skip: a non-empty item without a case reaches
`generate_questions`, whose `gapfind_re.finditer(self.case)` receives
`None` and raises `TypeError`.  On the stream `"Question: Y\n###\n"` the
lenient `next_item` therefore raises instead of returning the item. -/
theorem c2_caseless_item_raises :
    ∀ draws : List Nat, nextItemA ["Question: Y\n", "###\n"] draws = .typeError := by
  intro draws
  have hp : parseLoop emptyItemA ["Question: Y\n", "###\n"] =
      (⟨none, some "Y", [], []⟩, []) := by decide
  have he : isEmptyItem ⟨none, some "Y", [], []⟩ = false := by decide
  simp only [nextItemA, hp, he, Bool.false_eq_true, if_false, generateQuestions]

/-- C6: the claim states the extractor yields one question per gap marker
(and the empty sequence for zero markers).  On the two-gap case text
`"$a$ $b$"` generation never finishes — each question's selection loop
targets two distinct indices other than its own among only two gaps — so
no sequence of questions is ever produced.  The zero-marker half of the
claim does hold and is recorded alongside. -/
theorem c6_two_gap_text_generates_nothing :
    (∀ draws : List Nat, generateQuestions (some "$a$ $b$") draws = .hung) ∧
    (∀ draws : List Nat, generateQuestions (some "no gap markers") draws = .ok [] draws) := by
  constructor
  · exact gen_two_gaps_hung
  · intro draws
    have hg : scanGaps "no gap markers" = [] := by decide
    simp only [generateQuestions, hg, List.length_nil, genLoop]

/-- C4: the claim states strict parsing of
`"Case: X\nQuestion: Y\n- A\n- B\n###\n"` yields case `"X"`, every payload
having its trailing line terminator removed.  The strict `next_item` never
`rstrip`s the case line: the item's case is `"X\n"`, newline included
(question and answers are stripped as claimed). -/
theorem c4_strict_parse_keeps_newline :
    iterItemsB (splitLinesKeep "Case: X\nQuestion: Y\n- A\n- B\n###\n") =
      ([⟨"X\n", "Y", ["A", "B"]⟩], none) := by decide

/-- C8: the claim states every well-formed N-item stream yields exactly N
items in order.  Order and answer-order preservation do hold (second
conjunct: a two-item stream, duplicate answers kept in source order), but
the claim's universal form fails: a perfectly grammatical one-item stream
whose case text carries two gap markers makes the distractor-selection
loop run forever, so the stream yields zero of its one item (first
conjunct: for every finite sequence of random draws the iteration is still
stuck inside the first item's generation, no item yielded). -/
theorem c8_wellformed_stream_with_gaps_hangs :
    (∀ draws : List Nat,
      iterItemsA ["Case: $a$ $b$\n", "Question: Q\n", "###\n"] draws = .hung []) ∧
    (iterItemsA ["Case: A\n", "Question: Q1\n", "- x\n", "- x\n", "###\n",
        "Case: B\n", "Question: Q2\n", "###\n"] [] =
      .done [⟨some "A", some "Q1", ["x", "x"], []⟩, ⟨some "B", some "Q2", [], []⟩]) := by
  constructor
  · intro draws
    have hp : parseLoop emptyItemA ["Case: $a$ $b$\n", "Question: Q\n", "###\n"] =
        (⟨some "$a$ $b$", some "Q", [], []⟩, []) := by decide
    have he : isEmptyItem ⟨some "$a$ $b$", some "Q", [], []⟩ = false := by decide
    have hn : nextItemA ["Case: $a$ $b$\n", "Question: Q\n", "###\n"] draws = .hung := by
      simp only [nextItemA, hp, he, Bool.false_eq_true, if_false, gen_two_gaps_hung draws]
    show iterAuxA (3 + 1) _ _ = _
    simp only [iterAuxA, hn]
  · decide

/-! ## Helper lemmas: the lenient accumulation loop -/

/-- On a terminator-free block followed by a terminator line, the lenient
accumulation loop finalises with the last case payload, the last question
payload, and the answer payloads appended in order, leaving the lines
after the terminator unconsumed. -/
lemma parseLoop_block (t : String) (ht : rstrip t = itemTerminalLine)
    (block : List String) :
    ∀ (it : Item) (rest : List String),
      (∀ l ∈ block, rstrip l ≠ itemTerminalLine) →
      parseLoop it (block ++ t :: rest) =
        (⟨lastCasePayload it.case? block, lastQuestionPayload it.question? block,
          it.answers ++ answerPayloadsA block, it.gap_fill_questions⟩, rest) := by
  induction block with
  | nil =>
    intro it rest _
    simp only [List.nil_append, lastCasePayload, lastQuestionPayload, answerPayloadsA,
      List.append_nil]
    rw [parseLoop]
    simp only [ht, if_true]
  | cons l ls ih =>
    intro it rest hb
    have hl : rstrip l ≠ itemTerminalLine := hb l (List.mem_cons_self l ls)
    have hb2 : ∀ x ∈ ls, rstrip x ≠ itemTerminalLine :=
      fun x hx => hb x (List.mem_cons_of_mem l hx)
    rw [List.cons_append, parseLoop]
    simp only [lastCasePayload, lastQuestionPayload, answerPayloadsA]
    rw [if_neg hl]
    by_cases hc : pyStartsWith (rstrip l) caseMarker = true
    · rw [if_pos hc, if_pos hc, ih _ _ hb2]
      simp [hc]
    · rw [if_neg hc, if_neg hc]
      by_cases hq : pyStartsWith (rstrip l) questionMarker = true
      · rw [if_pos hq, if_pos hq, ih _ _ hb2]
        simp [hc, hq]
      · rw [if_neg hq, if_neg hq]
        by_cases ha : pyStartsWith (rstrip l) answerMarker = true
        · rw [if_pos ha, if_pos ha, ih _ _ hb2]
          simp [hc, hq, ha]
        · rw [if_neg ha, if_neg ha, ih _ _ hb2]
          simp [hc, hq, ha]

/-- Splitting the last-case fold at a list append. -/
lemma lastCasePayload_append (xs ys : List String) (acc : Option String) :
    lastCasePayload acc (xs ++ ys) = lastCasePayload (lastCasePayload acc xs) ys := by
  induction xs generalizing acc with
  | nil => rfl
  | cons l ls ih =>
    rw [List.cons_append, lastCasePayload, lastCasePayload]
    by_cases hc : pyStartsWith (rstrip l) caseMarker = true
    · rw [if_pos hc, if_pos hc, ih]
    · rw [if_neg hc, if_neg hc, ih]

/-- The last-case fold ignores a block with no case-marker line. -/
lemma lastCasePayload_no_case (ys : List String) (acc : Option String)
    (h : ∀ l ∈ ys, pyStartsWith (rstrip l) caseMarker = false) :
    lastCasePayload acc ys = acc := by
  induction ys generalizing acc with
  | nil => rfl
  | cons l ls ih =>
    rw [lastCasePayload, if_neg]
    · exact ih _ fun x hx => h x (List.mem_cons_of_mem l hx)
    · rw [h l (List.mem_cons_self l ls)]
      exact Bool.false_ne_true

/-- C7: last-writer-wins on case and question, append-only on answers, in
the lenient accumulation loop.  First conjunct: on any terminator-free
block the loop finalises with the *last* case payload, the *last* question
payload (each computed by a fold that overwrites on every matching line),
and the answer payloads of the block appended in order of appearance.
Second conjunct, the claim's explicit scenario: when a case-marker line
appears twice before the terminator and no case line follows the second,
the finalised item's case is the payload of the last occurrence. -/
theorem c7_last_writer_wins :
    (∀ (block : List String) (t : String) (rest : List String),
      (∀ l ∈ block, rstrip l ≠ itemTerminalLine) → rstrip t = itemTerminalLine →
      parseLoop emptyItemA (block ++ t :: rest) =
        (⟨lastCasePayload none block, lastQuestionPayload none block,
          answerPayloadsA block, []⟩, rest)) ∧
    (∀ (pre mid post : List String) (l₁ l₂ t : String) (rest : List String),
      (∀ l ∈ pre ++ l₁ :: mid ++ l₂ :: post, rstrip l ≠ itemTerminalLine) →
      rstrip t = itemTerminalLine →
      pyStartsWith (rstrip l₁) caseMarker = true →
      pyStartsWith (rstrip l₂) caseMarker = true →
      (∀ l ∈ post, pyStartsWith (rstrip l) caseMarker = false) →
      (parseLoop emptyItemA ((pre ++ l₁ :: mid ++ l₂ :: post) ++ t :: rest)).1.case? =
        some (pyDrop (rstrip l₂) caseMarker.length)) := by
  constructor
  · intro block t rest hb ht
    rw [parseLoop_block t ht block emptyItemA rest hb]
    rfl
  · intro pre mid post l₁ l₂ t rest hb ht h₁ h₂ hpost
    rw [parseLoop_block t ht _ emptyItemA rest hb]
    show lastCasePayload none (pre ++ l₁ :: mid ++ l₂ :: post) = _
    have hsplit : pre ++ l₁ :: mid ++ l₂ :: post = (pre ++ l₁ :: mid) ++ l₂ :: post := by
      simp [List.append_assoc]
    rw [hsplit, lastCasePayload_append, lastCasePayload, if_pos h₂,
      lastCasePayload_no_case post _ hpost]

/-- C7 witness: a concrete block with two case lines and two question
lines; the finalised item carries the later payloads and both answers in
order. -/
theorem c7_last_writer_wins_witness :
    parseLoop emptyItemA
        (["Case: A\n", "Question: P\n", "- x\n", "Case: B\n", "Question: R\n", "- y\n"] ++
          "###\n" :: ["Case: Z\n"]) =
      (⟨lastCasePayload none
          ["Case: A\n", "Question: P\n", "- x\n", "Case: B\n", "Question: R\n", "- y\n"],
        lastQuestionPayload none
          ["Case: A\n", "Question: P\n", "- x\n", "Case: B\n", "Question: R\n", "- y\n"],
        answerPayloadsA
          ["Case: A\n", "Question: P\n", "- x\n", "Case: B\n", "Question: R\n", "- y\n"],
        []⟩, ["Case: Z\n"]) ∧
    (parseLoop emptyItemA (([] ++ "Case: A\n" :: ["- x\n"] ++ "Case: B\n" :: ["- y\n"]) ++
        "###\n" :: [])).1.case? = some (pyDrop (rstrip "Case: B\n") caseMarker.length) := by
  constructor
  · exact c7_last_writer_wins.1 _ "###\n" _ (by decide) (by decide)
  · exact c7_last_writer_wins.2 [] ["- x\n"] ["- y\n"] "Case: A\n" "Case: B\n" "###\n" []
      (by decide) (by decide) (by decide) (by decide) (by decide)

/-- An item returned by the lenient `next_item` is never empty: the empty
accumulator is turned into `None` before generation runs, and attaching
gap-fill questions does not change the three fields `is_empty` reads. -/
lemma nextItemA_item_nonempty (lines : List String) (draws : List Nat)
    (it : Item) (rest : List String) (rd : List Nat)
    (h : nextItemA lines draws = .item it rest rd) : isEmptyItem it = false := by
  simp only [nextItemA] at h
  by_cases he : isEmptyItem (parseLoop emptyItemA lines).1 = true
  · rw [if_pos he] at h
    exact absurd h (by simp)
  · rw [if_neg he] at h
    cases hg : generateQuestions (parseLoop emptyItemA lines).1.case? draws with
    | typeError => rw [hg] at h; exact absurd h (by simp)
    | hung => rw [hg] at h; exact absurd h (by simp)
    | ok qs rd2 =>
      rw [hg] at h
      cases h
      simpa using he

/-- Every item yielded by the fuelled lenient iteration is non-empty. -/
lemma iterAuxA_items_nonempty :
    ∀ (fuel : Nat) (lines : List String) (draws : List Nat) (it : Item),
      it ∈ itemsOfA (iterAuxA fuel lines draws) → isEmptyItem it = false := by
  intro fuel
  induction fuel with
  | zero => intro lines draws it hit; simp [iterAuxA, itemsOfA] at hit
  | succ fuel ih =>
    intro lines draws it hit
    rw [iterAuxA] at hit
    cases hn : nextItemA lines draws with
    | noItem r => rw [hn] at hit; simp [itemsOfA] at hit
    | typeError => rw [hn] at hit; simp [itemsOfA] at hit
    | hung => rw [hn] at hit; simp [itemsOfA] at hit
    | item it2 rest rd =>
      rw [hn] at hit
      dsimp only at hit
      cases hr : iterAuxA fuel rest rd with
      | done its =>
        rw [hr] at hit
        simp only [itemsOfA, List.mem_cons] at hit
        rcases hit with rfl | hit
        · exact nextItemA_item_nonempty _ _ _ _ _ hn
        · exact ih rest rd it (by rw [hr]; simpa [itemsOfA] using hit)
      | typeError its =>
        rw [hr] at hit
        simp only [itemsOfA, List.mem_cons] at hit
        rcases hit with rfl | hit
        · exact nextItemA_item_nonempty _ _ _ _ _ hn
        · exact ih rest rd it (by rw [hr]; simpa [itemsOfA] using hit)
      | hung its =>
        rw [hr] at hit
        simp only [itemsOfA, List.mem_cons] at hit
        rcases hit with rfl | hit
        · exact nextItemA_item_nonempty _ _ _ _ _ hn
        · exact ih rest rd it (by rw [hr]; simpa [itemsOfA] using hit)

/-- C9: when the lenient accumulation reaches a terminator or the end of
the stream with an empty item, `next_item` signals "no item" (first
conjunct); consequently every item the stream yields is non-empty (second
conjunct); and a stream whose first block is empty — here, one starting at
a terminator line, as after two consecutive terminators — yields nothing
at all, whatever follows (third conjunct). -/
theorem c9_empty_item_ends_stream :
    (∀ (lines : List String) (draws : List Nat),
      isEmptyItem (parseLoop emptyItemA lines).1 = true →
      nextItemA lines draws = .noItem (parseLoop emptyItemA lines).2) ∧
    (∀ (lines : List String) (draws : List Nat) (it : Item),
      it ∈ itemsOfA (iterItemsA lines draws) → isEmptyItem it = false) ∧
    (∀ (ls : List String) (draws : List Nat),
      iterItemsA ("###\n" :: ls) draws = .done []) := by
  refine ⟨?_, ?_, ?_⟩
  · intro lines draws he
    simp [nextItemA, he]
  · intro lines draws it hit
    exact iterAuxA_items_nonempty _ _ _ _ hit
  · intro ls draws
    have ht : rstrip "###\n" = itemTerminalLine := by decide
    have hp : parseLoop emptyItemA ("###\n" :: ls) = (emptyItemA, ls) := by
      rw [parseLoop]
      simp only [ht, if_true]
    have hn : nextItemA ("###\n" :: ls) draws = .noItem ls := by
      have he : isEmptyItem emptyItemA = true := by decide
      simp [nextItemA, hp, he]
    show iterAuxA _ _ _ = _
    rw [iterAuxA, hn]

/-- C9 witness: the three conjuncts at concrete inputs — a lone-terminator
stream gives "no item"; the single item of a one-item stream is non-empty;
a stream opening with a terminator yields nothing even though a full item
follows. -/
theorem c9_empty_item_ends_stream_witness :
    nextItemA ["###\n"] [] = .noItem (parseLoop emptyItemA ["###\n"]).2 ∧
    isEmptyItem ⟨some "A", some "Q", ["x"], []⟩ = false ∧
    iterItemsA ["###\n", "Case: B\n", "Question: R\n", "###\n"] [] = .done [] :=
  ⟨c9_empty_item_ends_stream.1 ["###\n"] [] (by decide),
   c9_empty_item_ends_stream.2.1 ["Case: A\n", "Question: Q\n", "- x\n", "###\n"] []
     ⟨some "A", some "Q", ["x"], []⟩ (by decide),
   c9_empty_item_ends_stream.2.2 ["Case: B\n", "Question: R\n", "###\n"] []⟩

/-! ## Helper lemmas: the strict builder -/

/-- `rstrip` is idempotent: its result ends in a non-whitespace character
(or is empty). -/
lemma rstrip_idem (s : String) : rstrip (rstrip s) = rstrip s := by
  unfold rstrip
  simp [String.toList, List.reverse_reverse, List.dropWhile_idempotent]

/-- A line starting with the answer marker is not the terminator token. -/
lemma startsDash_ne_term {s : String} (h : pyStartsWith s answerMarker = true) :
    s ≠ itemTerminalLine := by
  intro he
  rw [he] at h
  exact absurd h (by decide)

/-- The blank-skipping loop of the strict `next_item` passes over any
leading whitespace-only lines. -/
lemma firstNonBlank_append :
    ∀ (pre : List String), (∀ p ∈ pre, strip p = "") → ∀ rest : List String,
      firstNonBlank (pre ++ rest) = firstNonBlank rest := by
  intro pre
  induction pre with
  | nil => intro _ rest; rfl
  | cons l ls ih =>
    intro h rest
    rw [List.cons_append, firstNonBlank, if_pos (h l (List.mem_cons_self l ls))]
    exact ih (fun x hx => h x (List.mem_cons_of_mem l hx)) rest

/-- The strict answers loop folds a run of answer lines into the
accumulator, in order. -/
lemma ansLoop_answers (cs qs : String) :
    ∀ (ans : List String), (∀ a ∈ ans, pyStartsWith (rstrip a) answerMarker = true) →
    ∀ (tail acc : List String),
      ansLoop cs qs (ans ++ tail) acc =
        ansLoop cs qs tail (acc ++ ans.map (fun a => pyDrop (rstrip a) answerMarker.length)) := by
  intro ans
  induction ans with
  | nil => intro _ tail acc; simp
  | cons a as ih =>
    intro h tail acc
    have ha : pyStartsWith (rstrip a) answerMarker = true := h a (List.mem_cons_self a as)
    have hne : rstrip (rstrip a) ≠ itemTerminalLine := by
      rw [rstrip_idem]
      exact startsDash_ne_term ha
    rw [List.cons_append]
    simp only [ansLoop]
    rw [if_neg hne, if_pos ha, ih (fun x hx => h x (List.mem_cons_of_mem a hx)) tail]
    simp [List.append_assoc]

/-- C5 counterexample: the claim, as stated, asks every structural error to
carry both the expected marker and the offending line content.  At the
input line `"zzz\n"` the case-position error message is the fixed string
`"'Case: ' does not start Item"`, which does not contain the offending
content `"zzz"`. -/
theorem c5_case_error_lacks_offending_line :
    nextItemB ["zzz\n"] = .err caseErrMsg ∧
    ¬ List.IsInfix "zzz".toList caseErrMsg.toList := by
  exact ⟨by decide, by decide⟩

/-- C5 amended: the strict `next_item` raises a structural error at every
grammar violation — a first non-blank line without the case marker, a
question position (including an end-of-stream short read, where
`readline()` yields `""`) without the question marker, and a line in the
answers section that is neither an answer line nor the terminator.  The
question-position and answers-position errors carry the expected marker
and the offending (stripped) line in their fixed message templates; the
case-position error carries only the expected marker.  The error aborts
iteration at once: `iter_items` returns no partial item for the failing
block (last conjunct). -/
theorem c5_strict_errors_amended :
    (∀ (pre : List String) (l : String) (rest : List String),
      (∀ p ∈ pre, strip p = "") → strip l ≠ "" →
      pyStartsWith l caseMarker = false →
      nextItemB (pre ++ l :: rest) = .err caseErrMsg) ∧
    (∀ (pre : List String) (l : String) (rest : List String),
      (∀ p ∈ pre, strip p = "") → strip l ≠ "" →
      pyStartsWith l caseMarker = true →
      pyStartsWith (rstrip (readline1 rest).1) questionMarker = false →
      nextItemB (pre ++ l :: rest) = .err (qErrMsg (rstrip (readline1 rest).1))) ∧
    (∀ (pre : List String) (l q : String) (ans : List String) (bad : String)
        (rest : List String),
      (∀ p ∈ pre, strip p = "") → strip l ≠ "" →
      pyStartsWith l caseMarker = true →
      pyStartsWith (rstrip q) questionMarker = true →
      (∀ a ∈ ans, pyStartsWith (rstrip a) answerMarker = true) →
      rstrip bad ≠ itemTerminalLine →
      pyStartsWith (rstrip bad) answerMarker = false →
      nextItemB (pre ++ l :: q :: (ans ++ bad :: rest)) = .err (termErrMsg (rstrip bad))) ∧
    (∀ (lines : List String) (m : String),
      nextItemB lines = .err m → iterItemsB lines = ([], some m)) := by
  refine ⟨?_, ?_, ?_, ?_⟩
  · intro pre l rest hpre hl hcase
    have h1 : firstNonBlank (pre ++ l :: rest) = some (l, rest) := by
      rw [firstNonBlank_append pre hpre, firstNonBlank, if_neg hl]
    simp [nextItemB, h1, hcase]
  · intro pre l rest hpre hl hcase hq
    have h1 : firstNonBlank (pre ++ l :: rest) = some (l, rest) := by
      rw [firstNonBlank_append pre hpre, firstNonBlank, if_neg hl]
    simp [nextItemB, h1, hcase, hq]
  · intro pre l q ans bad rest hpre hl hcase hq hans hbad1 hbad2
    have h1 : firstNonBlank (pre ++ l :: q :: (ans ++ bad :: rest)) =
        some (l, q :: (ans ++ bad :: rest)) := by
      rw [firstNonBlank_append pre hpre, firstNonBlank, if_neg hl]
    have h2 : ∀ cs qs : String, ansLoop cs qs (ans ++ bad :: rest) [] =
        .err (termErrMsg (rstrip bad)) := by
      intro cs qs
      rw [ansLoop_answers cs qs ans hans (bad :: rest) []]
      simp only [ansLoop]
      rw [if_neg (show ¬rstrip (rstrip bad) = itemTerminalLine by
            rw [rstrip_idem]; exact hbad1),
        if_neg (show ¬pyStartsWith (rstrip bad) answerMarker = true by simp [hbad2])]
    simp [nextItemB, h1, hcase, hq, h2, readline1]
  · intro lines m h
    show iterAuxB (lines.length + 1) lines = _
    rw [iterAuxB, h]

/-- C5 witness: the four amended conjuncts at concrete inputs — a blank
line then `"zzz\n"` (wrong case marker), a case line at end of stream
(short read at the question position), a full item whose answers section
hits `"oops\n"`, and the immediate abort of iteration on the first
error. -/
theorem c5_strict_errors_amended_witness :
    nextItemB (["\n"] ++ "zzz\n" :: []) = .err caseErrMsg ∧
    nextItemB ([] ++ "Case: C\n" :: []) =
      .err (qErrMsg (rstrip (readline1 ([] : List String)).1)) ∧
    nextItemB ([] ++ "Case: C\n" :: "Question: Q\n" :: (["- a\n"] ++ "oops\n" :: [])) =
      .err (termErrMsg (rstrip "oops\n")) ∧
    iterItemsB ["zzz\n"] = ([], some caseErrMsg) :=
  ⟨c5_strict_errors_amended.1 ["\n"] "zzz\n" [] (by decide) (by decide) (by decide),
   c5_strict_errors_amended.2.1 [] "Case: C\n" [] (by decide) (by decide) (by decide)
     (by decide),
   c5_strict_errors_amended.2.2.1 [] "Case: C\n" "Question: Q\n" ["- a\n"] "oops\n" []
     (by decide) (by decide) (by decide) (by decide) (by decide) (by decide) (by decide),
   c5_strict_errors_amended.2.2.2 ["zzz\n"] caseErrMsg (by decide)⟩

/-- C10: blank or whitespace-only lines are skipped only before the case
line.  First conjunct: any run of blank lines before an item is passed
over.  Second conjunct: a blank line between the case line and the
question line is not skipped — the question check sees the stripped empty
line and raises the question-position error.  Third conjunct: a blank line
anywhere among the answer lines — after any run of answer lines, before
the terminator — is neither an answer nor the terminator and raises the
answers-position error. -/
theorem c10_blank_line_policy :
    (∀ (pre rest : List String), (∀ p ∈ pre, strip p = "") →
      nextItemB (pre ++ rest) = nextItemB rest) ∧
    (∀ (c b : String) (rest : List String),
      strip c ≠ "" → pyStartsWith c caseMarker = true → rstrip b = "" →
      nextItemB (c :: b :: rest) = .err (qErrMsg "")) ∧
    (∀ (c q : String) (ans : List String) (b : String) (rest : List String),
      strip c ≠ "" → pyStartsWith c caseMarker = true →
      pyStartsWith (rstrip q) questionMarker = true →
      (∀ a ∈ ans, pyStartsWith (rstrip a) answerMarker = true) →
      rstrip b = "" →
      nextItemB (c :: q :: (ans ++ b :: rest)) = .err (termErrMsg "")) := by
  refine ⟨?_, ?_, ?_⟩
  · intro pre rest hpre
    simp only [nextItemB, firstNonBlank_append pre hpre rest]
  · intro c b rest hc hcase hb
    have h1 : firstNonBlank (c :: b :: rest) = some (c, b :: rest) := by
      rw [firstNonBlank, if_neg hc]
    have hq : pyStartsWith (rstrip b) questionMarker = false := by
      rw [hb]; decide
    simp [nextItemB, h1, hcase, readline1, hq, hb]
    intro h
    exact absurd h (by decide)
  · intro c q ans b rest hc hcase hq hans hb
    have h1 : firstNonBlank (c :: q :: (ans ++ b :: rest)) =
        some (c, q :: (ans ++ b :: rest)) := by
      rw [firstNonBlank, if_neg hc]
    have h2 : ∀ cs qs : String,
        ansLoop cs qs (ans ++ b :: rest) [] = .err (termErrMsg "") := by
      intro cs qs
      rw [ansLoop_answers cs qs ans hans (b :: rest) []]
      simp only [ansLoop]
      rw [if_neg (show ¬rstrip (rstrip b) = itemTerminalLine by rw [hb]; decide),
        if_neg (show ¬pyStartsWith (rstrip b) answerMarker = true by rw [hb]; decide), hb]
    simp [nextItemB, h1, hcase, hq, h2, readline1]

/-- C10 witness: the three conjuncts at concrete inputs — two blank lines
skipped before an item; a blank line after the case line raising the
question-position error; a blank line occurring *after* an answer line,
before the terminator, raising the answers-position error. -/
theorem c10_blank_line_policy_witness :
    nextItemB (["\n", "  \n"] ++ ["Case: C\n", "Question: Q\n", "###\n"]) =
      nextItemB ["Case: C\n", "Question: Q\n", "###\n"] ∧
    nextItemB ("Case: C\n" :: " \n" :: ["Question: Q\n", "###\n"]) = .err (qErrMsg "") ∧
    nextItemB ("Case: C\n" :: "Question: Q\n" :: (["- a\n"] ++ "\n" :: ["###\n"])) =
      .err (termErrMsg "") :=
  ⟨c10_blank_line_policy.1 ["\n", "  \n"] ["Case: C\n", "Question: Q\n", "###\n"] (by decide),
   c10_blank_line_policy.2.1 "Case: C\n" " \n" ["Question: Q\n", "###\n"]
     (by decide) (by decide) (by decide),
   c10_blank_line_policy.2.2 "Case: C\n" "Question: Q\n" ["- a\n"] "\n" ["###\n"]
     (by decide) (by decide) (by decide) (by decide) (by decide)⟩

/-- When the selection loop does finish, its output extends the
accumulator's invariant: duplicate-free indices, all below `n`, none equal
to the question's own index `i`, exactly `min n 4` of them. -/
lemma selectLoop_some_spec (i n : Nat) :
    ∀ (draws acc res rest : List Nat),
      selectLoop i n draws acc = some (res, rest) →
      acc.Nodup → (∀ x ∈ acc, x < n ∧ x ≠ i) → acc.length ≤ min n 4 →
      res.Nodup ∧ (∀ x ∈ res, x < n ∧ x ≠ i) ∧ res.length = min n 4 := by
  intro draws
  induction draws with
  | nil =>
    intro acc res rest h hnd hb hle
    unfold selectLoop at h
    by_cases hlt : acc.length < min n 4
    · rw [if_pos hlt] at h
      dsimp only at h
      cases h
    · rw [if_neg hlt] at h
      cases h
      exact ⟨hnd, hb, by omega⟩
  | cons d ds ih =>
    intro acc res rest h hnd hb hle
    unfold selectLoop at h
    by_cases hlt : acc.length < min n 4
    · rw [if_pos hlt] at h
      dsimp only at h
      have hn : 0 < n := (Nat.lt_min.mp (Nat.lt_of_le_of_lt (Nat.zero_le _) hlt)).1
      by_cases hc : d % n ≠ i ∧ d % n ∉ acc
      · rw [if_pos hc] at h
        apply ih _ res rest h
        · rw [List.nodup_append]
          refine ⟨hnd, List.nodup_singleton _, ?_⟩
          intro a ha hmem
          rw [List.mem_singleton] at hmem
          subst hmem
          exact hc.2 ha
        · intro x hx
          rcases List.mem_append.mp hx with hx | hx
          · exact hb x hx
          · rw [List.mem_singleton] at hx
            subst hx
            exact ⟨Nat.mod_lt d hn, hc.1⟩
        · rw [List.length_append, List.length_singleton]
          omega
      · rw [if_neg hc] at h
        exact ih acc res rest h hnd hb hle
    · rw [if_neg hlt] at h
      cases h
      exact ⟨hnd, hb, by omega⟩

/-- The distractor invariant of one generated question: its distractors
are the gap texts of a duplicate-free list of gap indices that excludes
the question's own index `j`, stays below the gap count `n`, and has at
most `min (n-1) 4` entries. -/
def distractorsSpec (gaps : List Gap) (n j : Nat) (q : GapFillQuestion) : Prop :=
  ∃ idxs : List Nat, q.distractors = idxs.map (gapText gaps) ∧ idxs.Nodup ∧
    j ∉ idxs ∧ (∀ x ∈ idxs, x < n) ∧ idxs.length ≤ min (n - 1) 4

/-- If the generation loop completes, every produced question satisfies
the distractor invariant at its own index, and one question was produced
per gap. -/
lemma genLoop_ok_spec (gaps : List Gap) (n : Nat) :
    ∀ (rem : List Gap) (i : Nat) (draws : List Nat) (acc qs : List GapFillQuestion)
      (rest : List Nat),
      genLoop gaps n rem i draws acc = .ok qs rest →
      i = acc.length → i + rem.length = n →
      (∀ j, j < acc.length → distractorsSpec gaps n j (acc.getD j default)) →
      (∀ j, j < qs.length → distractorsSpec gaps n j (qs.getD j default)) ∧ qs.length = n := by
  intro rem
  induction rem with
  | nil =>
    intro i draws acc qs rest h hi hlen hacc
    rw [genLoop] at h
    cases h
    rw [List.length_nil] at hlen
    exact ⟨hacc, by omega⟩
  | cons g gs ih =>
    intro i draws acc qs rest h hi hlen hacc
    rw [genLoop] at h
    cases hs : selectLoop i n draws [] with
    | none => rw [hs] at h; cases h
    | some pr =>
      obtain ⟨idxs, draws₁⟩ := pr
      rw [hs] at h
      dsimp only at h
      have hi_lt : i < n := by
        rw [List.length_cons] at hlen
        omega
      obtain ⟨hnd, hmem, hlen4⟩ :=
        selectLoop_some_spec i n draws [] idxs draws₁ hs List.nodup_nil
          (by intro x hx; cases hx) (by simp)
      have hbound : idxs.length ≤ min (n - 1) 4 := by
        have hle : idxs.length ≤ n - 1 := nodup_bounded_length hnd hmem hi_lt
        refine le_min hle ?_
        rw [hlen4]
        exact min_le_right n 4
      refine ih (i + 1) draws₁ _ qs rest h ?_ ?_ ?_
      · rw [List.length_append, List.length_singleton, hi]
      · rw [List.length_cons] at hlen
        omega
      · intro j hj
        rw [List.length_append, List.length_singleton] at hj
        by_cases hjlt : j < acc.length
        · rw [List.getD_append _ _ _ _ hjlt]
          exact hacc j hjlt
        · have hj_eq : j = acc.length := by omega
          subst hj_eq
          rw [List.getD_append_right _ _ _ _ (Nat.le_refl _), Nat.sub_self]
          refine ⟨idxs, rfl, hnd, ?_, fun x hx => (hmem x hx).1, hbound⟩
          intro hin
          exact (hmem _ hin).2 hi.symm

/-- C3: whenever `generate_questions` completes on a case text, every
generated question's distractors are the gap texts of a duplicate-free
index list that avoids the question's own gap index and has between 0 and
`min(total_gaps - 1, 4)` entries (the code's target is `min(total_gaps,4)`,
but completion itself forces that target under `total_gaps - 1`, since
only that many indices differ from the question's own). -/
theorem c3_distractors_unique_bounded (s : String) (draws : List Nat)
    (qs : List GapFillQuestion) (rest : List Nat) (j : Nat)
    (h : generateQuestions (some s) draws = .ok qs rest) (hj : j < qs.length) :
    distractorsSpec (scanGaps s) (scanGaps s).length j (qs.getD j default) := by
  refine (genLoop_ok_spec (scanGaps s) (scanGaps s).length (scanGaps s) 0 draws [] qs rest
    ?_ rfl (by simp) ?_).1 j hj
  · simpa [generateQuestions] using h
  · intro j hj
    exact absurd hj (by simp)

/-- C3 witness: a five-gap case text and a draw sequence under which every
selection loop accepts four distinct other-gap indices; the first
question's distractors satisfy the invariant. -/
theorem c3_distractors_unique_bounded_witness :
    distractorsSpec (scanGaps "$a$$b$$c$$d$$e$") (scanGaps "$a$$b$$c$$d$$e$").length 0
      (([⟨(0, 3), "$a$", ["$b$", "$c$", "$d$", "$e$"]⟩,
         ⟨(3, 6), "$b$", ["$a$", "$c$", "$d$", "$e$"]⟩,
         ⟨(6, 9), "$c$", ["$a$", "$b$", "$d$", "$e$"]⟩,
         ⟨(9, 12), "$d$", ["$a$", "$b$", "$c$", "$e$"]⟩,
         ⟨(12, 15), "$e$", ["$a$", "$b$", "$c$", "$d$"]⟩] :
        List GapFillQuestion).getD 0 default) :=
  c3_distractors_unique_bounded "$a$$b$$c$$d$$e$"
    [1, 2, 3, 4, 0, 2, 3, 4, 0, 1, 3, 4, 0, 1, 2, 4, 0, 1, 2, 3]
    [⟨(0, 3), "$a$", ["$b$", "$c$", "$d$", "$e$"]⟩,
     ⟨(3, 6), "$b$", ["$a$", "$c$", "$d$", "$e$"]⟩,
     ⟨(6, 9), "$c$", ["$a$", "$b$", "$d$", "$e$"]⟩,
     ⟨(9, 12), "$d$", ["$a$", "$b$", "$c$", "$e$"]⟩,
     ⟨(12, 15), "$e$", ["$a$", "$b$", "$c$", "$d$"]⟩] [] 0 (by decide) (by decide)
